import Mathlib

/-!
Verification development for the gameday-simulator repository.

The definitions below are a shallow embedding of the Go sources:
`internal/payload/types.go` (payload generator, ray-casting
point-in-polygon test, grid placement), `internal/payload/distributor.go`
(batch distribution and validation), `internal/simulator/order.go`
(order lifecycle driver, termination worker) and
`internal/simulator/batch.go` (sequential in-batch processing).

Modelling conventions:
* `float64` coordinates are embedded as rationals; the claims under
  study concern the branching logic of the algorithms, not rounding.
* Wall-clock values are abstract integers supplied by the environment.
* The Go channel select points (context cancellation, timers, poll
  ticks) are driven by an explicit environment record listing which
  branch fires at each suspension point.
* Loops with no structural bound (the polyline placement search) take
  a fuel parameter and return `none` when the fuel runs out, modelling
  the possibility that the Go loop never terminates.
-/

namespace Gameday

/-- A (longitude, latitude) pair; `coord[0]`/`coord[1]` in the Go code. -/
structure Coord where
  lng : ℚ
  lat : ℚ
deriving DecidableEq, Repr

/-- One iteration body of the ray-casting loop in
`Generator.isPointInPolygon` (types.go:265-285): the edge from vertex
`pj` (previous index) to vertex `pv` (current index) is counted as a
crossing when `((yi > lat) != (yj > lat)) && (lng < (xj-xi)*(lat-yi)/(yj-yi)+xi)`. -/
def edgeCrosses (lng lat : ℚ) (pv pj : Coord) : Bool :=
  (decide (pv.lat > lat) != decide (pj.lat > lat)) &&
    decide (lng < (pj.lng - pv.lng) * (lat - pv.lat) / (pj.lat - pv.lat) + pv.lng)

/-- The loop of `isPointInPolygon`: walk the vertex list, keeping the
previous vertex `pj` (initially the last vertex) and toggling `inside`
on each crossing. -/
def pipLoop (lng lat : ℚ) : List Coord → Coord → Bool → Bool
  | [], _, inside => inside
  | pv :: rest, pj, inside =>
      pipLoop lng lat rest pv (if edgeCrosses lng lat pv pj then !inside else inside)

/-- `Generator.isPointInPolygon` (types.go:265-285): ray casting over the
polygon's vertex list, pairing each vertex with its predecessor (the
predecessor of the first vertex is the last vertex).  An empty vertex
list leaves `inside` at its initial `false`. -/
def isPointInPolygon (lng lat : ℚ) (polygon : List Coord) : Bool :=
  match polygon.getLast? with
  | none => false
  | some plast => pipLoop lng lat polygon plast false

/-- Count the edges (current vertex paired with previous vertex) that
satisfy a given predicate, walking the vertex list exactly as the
`isPointInPolygon` loop does. -/
def edgeCountLoop (f : Coord → Coord → Bool) : List Coord → Coord → ℕ
  | [], _ => 0
  | pv :: rest, pj => (if f pv pj then 1 else 0) + edgeCountLoop f rest pv

/-- Number of polygon edges satisfying `f`, over the same edge pairing
that `isPointInPolygon` traverses. -/
def edgeCount (f : Coord → Coord → Bool) (polygon : List Coord) : ℕ :=
  match polygon.getLast? with
  | none => 0
  | some plast => edgeCountLoop f polygon plast

/-- Crossing rule exactly as the spec sentence words it: the test
latitude lies STRICTLY between the edge's endpoint latitudes, and the
point lies west of the edge at that latitude. -/
def strictBetweenWest (lng lat : ℚ) (pv pj : Coord) : Bool :=
  (decide (min pv.lat pj.lat < lat) && decide (lat < max pv.lat pj.lat)) &&
    decide (lng < (pj.lng - pv.lng) * (lat - pv.lat) / (pj.lat - pv.lat) + pv.lng)

/-- Crossing rule the code actually implements, written with min/max:
the test latitude is at least the lower endpoint latitude and strictly
below the higher one (half-open), and the point lies west of the edge. -/
def halfOpenWest (lng lat : ℚ) (pv pj : Coord) : Bool :=
  (decide (min pv.lat pj.lat ≤ lat) && decide (lat < max pv.lat pj.lat)) &&
    decide (lng < (pj.lng - pv.lng) * (lat - pv.lat) / (pj.lat - pv.lat) + pv.lng)

/-- `Generator.calculatePolylineHeight` (types.go:100-120): vertical
extent (max latitude − min latitude) of a coordinate list, `0` when the
list is empty. -/
def calculatePolylineHeight : List Coord → ℚ
  | [] => 0
  | c :: cs =>
      (c :: cs).foldl (fun m x => max m x.lat) c.lat -
        (c :: cs).foldl (fun m x => min m x.lat) c.lat

/-- The payload data consumed by the generator: template polyline,
spacing deltas and the boundary polygon (a list of rings). -/
structure PayloadData where
  basePolyline : List Coord
  deltaLng : ℚ
  deltaLat : ℚ
  boundary : List (List Coord)
deriving DecidableEq, Repr

/-- The generator's private grid state (`Generator` fields
`currentRow`, `currentCol`, `direction`, `maxColInRow`). -/
structure GenState where
  currentRow : ℕ
  currentCol : ℤ
  direction : ℤ
  maxColInRow : ℤ
deriving DecidableEq, Repr

/-- Initial generator state set in `NewGenerator` (types.go:88-98):
row 0, column 0, direction 1 (moving right), maxColInRow −1. -/
def initGenState : GenState :=
  { currentRow := 0, currentCol := 0, direction := 1, maxColInRow := -1 }

/-- `Generator.isPolylineInBoundary` (types.go:243-263): with no
boundary configured every position is accepted; otherwise every point
must pass the ray-casting test against the first (exterior) ring. -/
def isPolylineInBoundary (pd : PayloadData) (polyline : List Coord) : Bool :=
  match pd.boundary with
  | [] => true
  | exteriorRing :: _ =>
      polyline.all (fun point => isPointInPolygon point.lng point.lat exteriorRing)

/-- The candidate coordinates computed at the top of the placement loop
in `Generator.generatePolyline` (types.go:189-205): base polyline
shifted east by `deltaLng * currentCol` and south by
`(height + deltaLat) * currentRow`. -/
def candidateCoords (pd : PayloadData) (h : ℚ) (st : GenState) : List Coord :=
  let lngOffset := pd.deltaLng * (st.currentCol : ℚ)
  let rowSpacing := h + pd.deltaLat
  let latOffset := -rowSpacing * (st.currentRow : ℚ)
  pd.basePolyline.map (fun c => { lng := c.lng + lngOffset, lat := c.lat + latOffset })

/-- State update on a successful placement (types.go:209-219): record
the maximum column reached in the row, then advance the column in the
scan direction. -/
def placeSuccess (st : GenState) : GenState :=
  { st with
    maxColInRow := if st.currentCol > st.maxColInRow then st.currentCol else st.maxColInRow
    currentCol := if st.direction = 1 then st.currentCol + 1 else st.currentCol - 1 }

/-- State update when the candidate does not fit (types.go:227-239):
move to the next row, flip direction, restart the column at 0 (moving
right) or at the previous row's maximum column (moving left), and reset
`maxColInRow`. -/
def advanceRow (st : GenState) : GenState :=
  let dir := st.direction * (-1)
  { currentRow := st.currentRow + 1
    direction := dir
    currentCol := if dir = 1 then 0 else st.maxColInRow
    maxColInRow := -1 }

/-- The grid cell and direction at which a geometry was placed,
paired with the geometry itself. -/
structure Placement where
  geom : List Coord
  row : ℕ
  col : ℤ
  dir : ℤ
deriving DecidableEq, Repr

/-- `Generator.generatePolyline` (types.go:184-241).  The Go `for` loop
has no bound: it retries rows until a candidate fits.  `fuel` bounds the
number of loop iterations; `none` models the loop running forever. -/
def generatePolyline (pd : PayloadData) (h : ℚ) :
    ℕ → GenState → Option (Placement × GenState)
  | 0, _ => none
  | fuel + 1, st =>
      let coords := candidateCoords pd h st
      if isPolylineInBoundary pd coords then
        some ({ geom := coords, row := st.currentRow, col := st.currentCol,
                dir := st.direction },
              placeSuccess st)
      else
        generatePolyline pd h fuel (advanceRow st)

/-- Order type tag (`TypeActivate` / `TypeAccepted` in types.go:8-11). -/
inductive OrderType
  | activate
  | accepted
deriving DecidableEq, Repr

/-- The configuration fields the generator reads
(`config.Simulation.TotalOrders`, `config.Simulation.ActivatedCount`,
and the payload fields; the Go field OrderNumberPrefix is named
`orderNumberPfx` here). -/
structure SimConfig where
  totalOrders : ℕ
  activatedCount : ℕ
  orderNumberPfx : String
  location : String
  pocOrder : String
deriving DecidableEq, Repr

/-- Zero-padding of the order index as in
`fmt.Sprintf("%s%06d", prefix, index+1)`. -/
def pad6 (n : ℕ) : String :=
  let s := toString n
  String.mk (List.replicate (6 - s.length) '0') ++ s

/-- `payload.OrderPayload` (types.go:13-22), restricted to the fields
the generator computes deterministically (the wall-clock timestamp and
the copied custom-fields map are not modelled). -/
structure OrderPayload where
  orderNumber : String
  location : String
  pocOrder : String
  type : OrderType
  geometry : List Coord
deriving DecidableEq, Repr

/-- `Generator.generatePayload` (types.go:146-182) restricted to its
deterministic fields, paired with the grid placement of its geometry. -/
def generatePayload (cfg : SimConfig) (pd : PayloadData) (h : ℚ) (fuel : ℕ)
    (index : ℕ) (orderType : OrderType) (st : GenState) :
    Option ((OrderPayload × Placement) × GenState) :=
  match generatePolyline pd h fuel st with
  | none => none
  | some (pl, st') =>
      some (({ orderNumber := cfg.orderNumberPfx ++ pad6 (index + 1)
               location := cfg.location
               pocOrder := cfg.pocOrder
               type := orderType
               geometry := pl.geom }, pl), st')

/-- A sequence of generation calls on one generator instance: each
element of `idx` is the `(index, orderType)` argument pair of one
`generatePayload` call; the grid state is threaded through. -/
def genLoop (cfg : SimConfig) (pd : PayloadData) (h : ℚ) (fuel : ℕ) :
    List (ℕ × OrderType) → GenState →
    Option (List (OrderPayload × Placement) × GenState)
  | [], st => some ([], st)
  | (i, ty) :: rest, st =>
      match generatePayload cfg pd h fuel i ty st with
      | none => none
      | some (p, st') =>
          match genLoop cfg pd h fuel rest st' with
          | none => none
          | some (ps, st'') => some (p :: ps, st'')

/-- The index/type sequence of `Generator.GenerateAll`
(types.go:122-143): indices `0 .. activatedCount-1` get the activate
type, indices `activatedCount .. totalOrders-1` the accepted type. -/
def generateAllIndices (cfg : SimConfig) : List (ℕ × OrderType) :=
  (List.range cfg.activatedCount).map (fun i => (i, OrderType.activate)) ++
    (List.range' cfg.activatedCount (cfg.totalOrders - cfg.activatedCount)).map
      (fun i => (i, OrderType.accepted))

/-- `Generator.GenerateAll` (types.go:122-143) run from the initial
generator state (the shuffle call is commented out in the source).
Returns the payloads paired with their grid placements. -/
def GenerateAll (cfg : SimConfig) (pd : PayloadData) (fuel : ℕ) :
    Option (List (OrderPayload × Placement)) :=
  match genLoop cfg pd (calculatePolylineHeight pd.basePolyline) fuel
      (generateAllIndices cfg) initGenState with
  | none => none
  | some (ps, _) => some ps

/-- `payload.Batch` (distributor.go:8-11). -/
structure Batch where
  id : ℕ
  payloads : List OrderPayload
deriving DecidableEq, Repr

/-- `Distributor.Distribute` (distributor.go:26-49): empty input
returns the nil slice; otherwise the loop `for i := 0; i < len; i +=
batchSize` runs `numBatches = (len + batchSize - 1) / batchSize` times,
iteration `k` starting at `i = k * batchSize` and slicing
`payloads[i:min(i+batchSize, len)]` with ID `len(batches)+1 = k+1`.
With `batchSize = 0` the Go code divides by zero (a runtime panic),
modelled as `none`; it also checks the empty input before that
division, as the source does. -/
def Distribute (batchSize : ℕ) (payloads : List OrderPayload) : Option (List Batch) :=
  if payloads.isEmpty then some []
  else if batchSize = 0 then none
  else
    let numBatches := (payloads.length + batchSize - 1) / batchSize
    some ((List.range numBatches).map (fun k =>
      { id := k + 1, payloads := (payloads.drop (k * batchSize)).take batchSize }))

/-- The `for` loop of `ValidateBatches` (distributor.go:92-96):
error out at the first empty batch. -/
def validateLoop : List Batch → Except String Unit
  | [] => Except.ok ()
  | b :: rest =>
      if b.payloads.isEmpty then
        Except.error ("batch " ++ toString b.id ++ " has no payloads")
      else validateLoop rest

/-- `payload.ValidateBatches` (distributor.go:86-99). -/
def ValidateBatches (batches : List Batch) : Except String Unit :=
  if batches.isEmpty then Except.error "no batches to validate"
  else validateLoop batches

/-- `payload.OrderState` (types.go:30-42).  The Go type is a string;
`unset` stands for the zero value `""` that a fresh `OrderResult`
carries before any assignment. -/
inductive OrderState
  | unset
  | created
  | accepted
  | activated
  | pendingCancel
  | pendingEnd
  | cancelled
  | ended
  | failed
deriving DecidableEq, Repr

/-- The error values produced in order.go, one constructor per distinct
`fmt.Errorf` site (the payload string of wrapped API errors is kept). -/
inductive SimErr
  | ctxCanceled
  | acceptanceTimeout
  | createFailed (e : String)
  | getDetailsFailed (e : String)
  | orderProcessingFailed
  | activateFailed (e : String)
  | endFailed (e : String)
  | cancelFailed (e : String)
deriving DecidableEq, Repr

/-- `simulator.OrderResult` (order.go:193-203), with abstract integer
clock values for the `time.Time` / `time.Duration` fields. -/
structure OrderResult where
  orderNumber : String
  orderID : String
  type : OrderType
  state : OrderState
  startTime : ℤ
  endTime : ℤ
  duration : ℤ
  error : Option SimErr
deriving DecidableEq, Repr

/-- `simulator.TerminationAction` (order.go:20-26). -/
inductive TermAction
  | actionEnd
  | actionCancel
deriving DecidableEq, Repr

/-- `simulator.TerminationRequest` (order.go:13-18).  The Go struct
holds a pointer to the `OrderResult`; here the request carries the
record's contents at enqueue time (message-passing view). -/
structure TerminationRequest where
  orderID : String
  action : TermAction
  result : OrderResult
deriving DecidableEq, Repr

/-- Events the lifecycle driver performs on its `OrderResult` and on
the termination channel, in program order: one `write*` event per Go
assignment to a field of the record, and `enqueue` for the channel
send.  Used to state the producer/consumer ownership-transfer claim. -/
inductive ProdEvent
  | writeOrderID
  | writeState (s : OrderState)
  | writeError
  | writeEndTime
  | writeDuration
  | enqueue
deriving DecidableEq, Repr

/-- `true` for every event that mutates the `OrderResult`. -/
def isWriteEvent : ProdEvent → Bool
  | ProdEvent.enqueue => false
  | _ => true

/-- Whether a producer trace contains a write to the `OrderResult`
occurring after an `enqueue` of the termination request. -/
def writesAfterEnqueue : List ProdEvent → Bool
  | [] => false
  | ProdEvent.enqueue :: rest => rest.any isWriteEvent || writesAfterEnqueue rest
  | _ :: rest => writesAfterEnqueue rest

instance {ε α : Type} [DecidableEq ε] [DecidableEq α] : DecidableEq (Except ε α) :=
  fun x y =>
    match x, y with
    | Except.error a, Except.error b =>
        if h : a = b then isTrue (by rw [h])
        else isFalse (by intro hc; cases hc; exact h rfl)
    | Except.error _, Except.ok _ => isFalse (by intro hc; cases hc)
    | Except.ok _, Except.error _ => isFalse (by intro hc; cases hc)
    | Except.ok a, Except.ok b =>
        if h : a = b then isTrue (by rw [h])
        else isFalse (by intro hc; cases hc; exact h rfl)

/-- One observed outcome of the `select` in the polling loop of
`waitForAcceptance` (order.go:114-134): the context fires, the timeout
fires, or a ticker tick leads to a `GetDetails` call returning either
an error or a status string. -/
inductive WaitEvent
  | ctxDone
  | timeout
  | tick (resp : Except String String)
deriving DecidableEq, Repr

/-- Environment of one `ProcessOrder` call: which branch each
suspension point takes and what every remote call returns. -/
structure OrderEnv where
  createResult : Except String String
  afterCreateCancelled : Bool
  waitEvents : List WaitEvent
  beforeActivateCancelled : Bool
  activateResult : Except String String
  beforeEndCancelled : Bool
  beforeCancelCancelled : Bool
deriving DecidableEq, Repr

/-- The polling loop of `waitForAcceptance` (order.go:114-134),
consuming one `WaitEvent` per `select`: context cancellation returns
`ctx.Err()`, the deadline returns the timeout error, a tick polls
`GetDetails` and returns on status `Accepted` or `Failed`, looping
otherwise.  `none`: the event list is exhausted with the loop still
running (the Go loop would block forever). -/
def pollLoop : List WaitEvent → Option (Except SimErr Unit)
  | [] => none
  | WaitEvent.ctxDone :: _ => some (Except.error SimErr.ctxCanceled)
  | WaitEvent.timeout :: _ => some (Except.error SimErr.acceptanceTimeout)
  | WaitEvent.tick (Except.error e) :: _ =>
      some (Except.error (SimErr.getDetailsFailed e))
  | WaitEvent.tick (Except.ok s) :: rest =>
      if s = "Accepted" then some (Except.ok ())
      else if s = "Failed" then some (Except.error SimErr.orderProcessingFailed)
      else pollLoop rest

/-- `OrderProcessor.waitForAcceptance` (order.go:100-135): the initial
`select` (cancellation vs. the after-create interval), then the polling
loop. -/
def waitForAcceptance (env : OrderEnv) : Option (Except SimErr Unit) :=
  if env.afterCreateCancelled then some (Except.error SimErr.ctxCanceled)
  else pollLoop env.waitEvents

/-- Result of one type-specific flow: updated record, returned error,
requests sent on the termination channel, and the producer-event trace
of the flow body. -/
structure FlowOut where
  result : OrderResult
  err : Option SimErr
  sent : List TerminationRequest
  trace : List ProdEvent
deriving DecidableEq, Repr

/-- `OrderProcessor.activateFlow` (order.go:137-171): wait (cancellable),
activate (failure sets the Failed state), write `Activated`, wait
(cancellable), enqueue the end-termination request, then write
`PendingEnd`. -/
def activateFlow (env : OrderEnv) (orderID : String) (result : OrderResult) : FlowOut :=
  if env.beforeActivateCancelled then
    { result := result, err := some SimErr.ctxCanceled, sent := [], trace := [] }
  else
    match env.activateResult with
    | Except.error e =>
        { result := { result with state := OrderState.failed }
          err := some (SimErr.activateFailed e)
          sent := []
          trace := [ProdEvent.writeState OrderState.failed] }
    | Except.ok _ =>
        let r1 := { result with state := OrderState.activated }
        if env.beforeEndCancelled then
          { result := r1, err := some SimErr.ctxCanceled, sent := []
            trace := [ProdEvent.writeState OrderState.activated] }
        else
          { result := { r1 with state := OrderState.pendingEnd }
            err := none
            sent := [{ orderID := orderID, action := TermAction.actionEnd, result := r1 }]
            trace := [ProdEvent.writeState OrderState.activated, ProdEvent.enqueue,
                      ProdEvent.writeState OrderState.pendingEnd] }

/-- `OrderProcessor.acceptedFlow` (order.go:173-191): wait (cancellable),
enqueue the cancel-termination request, then write `PendingCancel`. -/
def acceptedFlow (env : OrderEnv) (orderID : String) (result : OrderResult) : FlowOut :=
  if env.beforeCancelCancelled then
    { result := result, err := some SimErr.ctxCanceled, sent := [], trace := [] }
  else
    { result := { result with state := OrderState.pendingCancel }
      err := none
      sent := [{ orderID := orderID, action := TermAction.actionCancel, result := result }]
      trace := [ProdEvent.enqueue, ProdEvent.writeState OrderState.pendingCancel] }

/-- Result of `ProcessOrder`: the returned `*OrderResult` pointer
(`none` models a nil pointer, never actually produced), the returned
error, the termination requests sent, and the producer-event trace. -/
structure ProcOut where
  res : Option OrderResult
  err : Option SimErr
  sent : List TerminationRequest
  trace : List ProdEvent
deriving DecidableEq, Repr

/-- `OrderProcessor.ProcessOrder` (order.go:44-89).  `startTime` and
`now` stand for the two `time.Now()` readings.  The outer `none` models
the call never returning (the acceptance poll blocked forever); every
actual return path yields `some`. -/
def ProcessOrder (env : OrderEnv) (pl : OrderPayload) (startTime now : ℤ) :
    Option ProcOut :=
  let result : OrderResult :=
    { orderNumber := pl.orderNumber, orderID := "", type := pl.type
      state := OrderState.unset, startTime := startTime, endTime := 0
      duration := 0, error := none }
  match env.createResult with
  | Except.error e =>
      some { res := some { result with error := some (SimErr.createFailed e)
                                       state := OrderState.failed }
             err := some (SimErr.createFailed e)
             sent := []
             trace := [ProdEvent.writeError, ProdEvent.writeState OrderState.failed] }
  | Except.ok orderID =>
      let r1 := { result with orderID := orderID, state := OrderState.created }
      let t1 : List ProdEvent :=
        [ProdEvent.writeOrderID, ProdEvent.writeState OrderState.created]
      match waitForAcceptance env with
      | none => none
      | some (Except.error e) =>
          some { res := some { r1 with error := some e, state := OrderState.failed }
                 err := some e
                 sent := []
                 trace := t1 ++ [ProdEvent.writeError, ProdEvent.writeState OrderState.failed] }
      | some (Except.ok _) =>
          let r2 := { r1 with state := OrderState.accepted }
          let t2 := t1 ++ [ProdEvent.writeState OrderState.accepted]
          let fo :=
            if pl.type = OrderType.activate then activateFlow env orderID r2
            else acceptedFlow env orderID r2
          match fo.err with
          | some e =>
              some { res := some { fo.result with error := some e }
                     err := some e
                     sent := fo.sent
                     trace := t2 ++ fo.trace ++ [ProdEvent.writeError] }
          | none =>
              some { res := some { fo.result with
                                     endTime := now
                                     duration := now - fo.result.startTime }
                     err := none
                     sent := fo.sent
                     trace := t2 ++ fo.trace ++
                       [ProdEvent.writeEndTime, ProdEvent.writeDuration] }

/-- Per-item environment of `processSingleBatch`: the `ctx.Err()`
pre-check before the order, the order's own environment and clock
readings, and whether the pacing wait after the item observes
cancellation. -/
structure BatchItemEnv where
  ctxAlreadyCancelled : Bool
  orderEnv : OrderEnv
  startTime : ℤ
  endClock : ℤ
  pacingCancelled : Bool
deriving DecidableEq, Repr

/-- `simulator.BatchResult` (batch.go:156-165) restricted to the
counting fields the claims are about. -/
structure BatchResult where
  batchID : ℕ
  totalOrders : ℕ
  successfulOrders : ℕ
  failedOrders : ℕ
  orderResults : List OrderResult
deriving DecidableEq, Repr

/-- How a modelled batch run can fail to produce a `BatchResult`:
`blockedForever` when an order's acceptance poll never fires another
event, `nilDeref` when the unconditional `*orderResult` dereference in
batch.go:137 would hit a nil pointer. -/
inductive BatchFault
  | blockedForever
  | nilDeref
deriving DecidableEq, Repr

/-- The payload loop of `BatchProcessor.processSingleBatch`
(batch.go:122-147): the `ctx.Err()` pre-check counts the order failed
and skips it; otherwise `ProcessOrder` runs, an error counts the order
failed and a nil error successful; the returned result is dereferenced
unconditionally and appended; between items a cancelled pacing wait
returns the partial result early. -/
def batchLoop : List (OrderPayload × BatchItemEnv) → BatchResult →
    Except BatchFault BatchResult
  | [], acc => Except.ok acc
  | (pl, ie) :: rest, acc =>
      if ie.ctxAlreadyCancelled then
        batchLoop rest { acc with failedOrders := acc.failedOrders + 1 }
      else
        match ProcessOrder ie.orderEnv pl ie.startTime ie.endClock with
        | none => Except.error BatchFault.blockedForever
        | some out =>
            match out.res with
            | none => Except.error BatchFault.nilDeref
            | some r =>
                let acc1 :=
                  if out.err.isSome then
                    { acc with failedOrders := acc.failedOrders + 1 }
                  else
                    { acc with successfulOrders := acc.successfulOrders + 1 }
                let acc2 := { acc1 with orderResults := acc1.orderResults ++ [r] }
                if !rest.isEmpty && ie.pacingCancelled then Except.ok acc2
                else batchLoop rest acc2

/-- `BatchProcessor.processSingleBatch` (batch.go:112-153), counting
fields only. -/
def processSingleBatch (batchID : ℕ) (items : List (OrderPayload × BatchItemEnv)) :
    Except BatchFault BatchResult :=
  batchLoop items
    { batchID := batchID, totalOrders := items.length, successfulOrders := 0
      failedOrders := 0, orderResults := [] }

/-- Environment of one `processTermination` call: what `EndOrder` and
`CancelOrder` would return, and the `time.Now()` reading. -/
structure TermEnv where
  endResult : Except String String
  cancelResult : Except String String
  now : ℤ
deriving DecidableEq, Repr

/-- `processTermination` (order.go:217-240): apply the requested remote
action; on failure write the Failed state and the wrapped error, on
success write the matching terminal state; in both cases write the
completion timestamp and duration. -/
def processTermination (env : TermEnv) (req : TerminationRequest) : OrderResult :=
  let r :=
    match req.action with
    | TermAction.actionEnd =>
        match env.endResult with
        | Except.error e =>
            { req.result with state := OrderState.failed
                              error := some (SimErr.endFailed e) }
        | Except.ok _ => { req.result with state := OrderState.ended }
    | TermAction.actionCancel =>
        match env.cancelResult with
        | Except.error e =>
            { req.result with state := OrderState.failed
                              error := some (SimErr.cancelFailed e) }
        | Except.ok _ => { req.result with state := OrderState.cancelled }
  { r with endTime := env.now, duration := env.now - r.startTime }

/-- `TerminationWorker` (order.go:205-215): consume requests in arrival
order, applying `processTermination` to each; the list ends when the
context stops the worker. -/
def TerminationWorker : List (TermEnv × TerminationRequest) → List OrderResult
  | [] => []
  | (env, req) :: rest => processTermination env req :: TerminationWorker rest

/-- Cancellation is the first outcome the polling loop observes: the
`ctx.Done()` branch fires before any timeout, poll error or terminal
status. -/
def cancelObservedPoll : List WaitEvent → Bool
  | [] => false
  | WaitEvent.ctxDone :: _ => true
  | WaitEvent.timeout :: _ => false
  | WaitEvent.tick (Except.error _) :: _ => false
  | WaitEvent.tick (Except.ok s) :: rest =>
      if s = "Accepted" then false
      else if s = "Failed" then false
      else cancelObservedPoll rest

/-- The external cancellation signal is raised and observed during the
in-progress wait or poll of `waitForAcceptance`. -/
def cancelDuringWait (env : OrderEnv) : Bool :=
  env.afterCreateCancelled || cancelObservedPoll env.waitEvents

/-- The closed unit-square ring used as a concrete boundary. -/
def unitSquare : List Coord :=
  [{ lng := 0, lat := 0 }, { lng := 1, lat := 0 }, { lng := 1, lat := 1 },
   { lng := 0, lat := 1 }, { lng := 0, lat := 0 }]

/-- Ordering between two placements produced by successive generation
calls: the later one is on a strictly lower row, or on the same row
with the same scan direction and a column strictly further along that
direction. -/
def placedRel (p q : Placement) : Prop :=
  p.row < q.row ∨
    (p.row = q.row ∧ p.dir = q.dir ∧
      (q.dir = 1 → p.col < q.col) ∧ (q.dir ≠ 1 → q.col < p.col))

/-- A past placement is behind the generator's current state: the state
has moved to a later row, or stayed on the placement's row with the
same direction and the cursor strictly past the placement's column. -/
def placedBeyond (p : Placement) (st : GenState) : Prop :=
  p.row < st.currentRow ∨
    (p.row = st.currentRow ∧ p.dir = st.direction ∧
      (st.direction = 1 → p.col < st.currentCol) ∧
      (st.direction ≠ 1 → st.currentCol < p.col))

/-- Test fixture: a payload with the given order number and type and no
geometry. -/
def fixturePayload (s : String) (t : OrderType) : OrderPayload :=
  { orderNumber := s, location := "L", pocOrder := "P", type := t, geometry := [] }

/-- Test fixture: three payloads to distribute. -/
def wPayloads : List OrderPayload :=
  [fixturePayload "ORD-000001" OrderType.activate,
   fixturePayload "ORD-000002" OrderType.activate,
   fixturePayload "ORD-000003" OrderType.accepted]

/-- Test fixture: closed square ring with corners (0,0) and (4,4). -/
def sq4 : List Coord :=
  [{ lng := 0, lat := 0 }, { lng := 4, lat := 0 }, { lng := 4, lat := 4 },
   { lng := 0, lat := 4 }, { lng := 0, lat := 0 }]

/-- Test fixture: one order, boundary `sq4`, one-point template. -/
def wcfgOne : SimConfig :=
  { totalOrders := 1, activatedCount := 1, orderNumberPfx := "ORD-",
    location := "L", pocOrder := "P" }

/-- Test fixture: payload data with boundary `sq4`. -/
def wpdSquare : PayloadData :=
  { basePolyline := [{ lng := 1, lat := 1 }], deltaLng := 1, deltaLat := 1,
    boundary := [sq4] }

/-- Test fixture: the payload generated from `wcfgOne`/`wpdSquare`. -/
def wPayOne : OrderPayload :=
  { orderNumber := "ORD-000001", location := "L", pocOrder := "P",
    type := OrderType.activate, geometry := [{ lng := 1, lat := 1 }] }

/-- Test fixture: the placement of `wPayOne`. -/
def wPlOne : Placement :=
  { geom := [{ lng := 1, lat := 1 }], row := 0, col := 0, dir := 1 }

/-- Test fixture: three orders, two of them activate-type. -/
def wcfgFlat : SimConfig :=
  { totalOrders := 3, activatedCount := 2, orderNumberPfx := "ORD-",
    location := "L", pocOrder := "P" }

/-- Test fixture: empty template polyline and no boundary, so every
placement attempt succeeds immediately. -/
def wpdFree : PayloadData :=
  { basePolyline := [], deltaLng := 1, deltaLat := 1, boundary := [] }

/-- Test fixture: output of `GenerateAll wcfgFlat wpdFree 1`. -/
def wListFlat : List (OrderPayload × Placement) :=
  [(fixturePayload "ORD-000001" OrderType.activate,
    { geom := [], row := 0, col := 0, dir := 1 }),
   (fixturePayload "ORD-000002" OrderType.activate,
    { geom := [], row := 0, col := 1, dir := 1 }),
   (fixturePayload "ORD-000003" OrderType.accepted,
    { geom := [], row := 0, col := 2, dir := 1 })]

/-- Test fixture: an order environment in which every remote call
succeeds and no cancellation fires. -/
def happyEnv : OrderEnv :=
  { createResult := Except.ok "order-123"
    afterCreateCancelled := false
    waitEvents := [WaitEvent.tick (Except.ok "Accepted")]
    beforeActivateCancelled := false
    activateResult := Except.ok "activated"
    beforeEndCancelled := false
    beforeCancelCancelled := false }

/-- Test fixture: an activate-type payload. -/
def happyPayload : OrderPayload :=
  fixturePayload "ORD-000001" OrderType.activate

/-- Test fixture: an order environment in which creation succeeds and
the external cancellation signal fires at the first poll select. -/
def cancelEnv : OrderEnv :=
  { createResult := Except.ok "order-123"
    afterCreateCancelled := false
    waitEvents := [WaitEvent.ctxDone]
    beforeActivateCancelled := false
    activateResult := Except.ok "activated"
    beforeEndCancelled := false
    beforeCancelCancelled := false }

/-- Test fixture: a pending-cancel order result awaiting termination. -/
def wTermReq : TerminationRequest :=
  { orderID := "order-123", action := TermAction.actionCancel
    result := { orderNumber := "ORD-000001", orderID := "order-123",
                type := OrderType.accepted, state := OrderState.pendingCancel,
                startTime := 2, endTime := 0, duration := 0, error := none } }

/-- Test fixture: a termination environment whose cancel call fails. -/
def wTermEnv : TermEnv :=
  { endResult := Except.ok "ended", cancelResult := Except.error "boom", now := 7 }

/-- Test fixture: batch item wrapping `cancelEnv`, no pre-cancellation
and no pacing cancellation. -/
def wItemEnv : BatchItemEnv :=
  { ctxAlreadyCancelled := false, orderEnv := cancelEnv,
    startTime := 0, endClock := 5, pacingCancelled := false }

/-- Test fixture: the output of `ProcessOrder happyEnv happyPayload 0 5`. -/
def wOutHappy : ProcOut :=
  { res := some { orderNumber := "ORD-000001", orderID := "order-123",
                  type := OrderType.activate, state := OrderState.pendingEnd,
                  startTime := 0, endTime := 5, duration := 5, error := none }
    err := none
    sent := [{ orderID := "order-123", action := TermAction.actionEnd,
               result := { orderNumber := "ORD-000001", orderID := "order-123",
                           type := OrderType.activate,
                           state := OrderState.activated, startTime := 0,
                           endTime := 0, duration := 0, error := none } }]
    trace := [ProdEvent.writeOrderID, ProdEvent.writeState OrderState.created,
              ProdEvent.writeState OrderState.accepted,
              ProdEvent.writeState OrderState.activated, ProdEvent.enqueue,
              ProdEvent.writeState OrderState.pendingEnd,
              ProdEvent.writeEndTime, ProdEvent.writeDuration] }

theorem edgeCrosses_eq_halfOpenWest (lng lat : ℚ) (pv pj : Coord) :
    edgeCrosses lng lat pv pj = halfOpenWest lng lat pv pj := by
  unfold edgeCrosses halfOpenWest
  congr 1
  rw [Bool.eq_iff_iff]
  simp only [bne_iff_ne, ne_eq, decide_eq_decide, Bool.and_eq_true, decide_eq_true_eq,
    min_le_iff, lt_max_iff, gt_iff_lt, ← not_lt, lt_min_iff]
  tauto

theorem pipLoop_parity (lng lat : ℚ) (l : List Coord) :
    ∀ (pj : Coord) (b : Bool),
      pipLoop lng lat l pj b =
        (b ^^ decide (Odd (edgeCountLoop (edgeCrosses lng lat) l pj))) := by
  induction l with
  | nil => intro pj b; simp [pipLoop, edgeCountLoop]
  | cons pv rest ih =>
      intro pj b
      by_cases h : edgeCrosses lng lat pv pj = true
      · rw [pipLoop]
        simp only [h, if_true, ih pv (!b), edgeCountLoop, if_true]
        have : Odd (1 + edgeCountLoop (edgeCrosses lng lat) rest pv) ↔
            ¬ Odd (edgeCountLoop (edgeCrosses lng lat) rest pv) := by
          rw [Nat.odd_iff, Nat.odd_iff]; omega
        by_cases ho : Odd (edgeCountLoop (edgeCrosses lng lat) rest pv) <;>
          simp [ho, this]
      · rw [pipLoop]
        rw [Bool.not_eq_true] at h
        simp [h, ih pv b, edgeCountLoop]


theorem edgeCountLoop_crosses_eq (lng lat : ℚ) :
    ∀ (l : List Coord) (pj : Coord),
      edgeCountLoop (edgeCrosses lng lat) l pj =
        edgeCountLoop (halfOpenWest lng lat) l pj := by
  intro l
  induction l with
  | nil => intro pj; rfl
  | cons pv rest ih =>
      intro pj
      simp [edgeCountLoop, edgeCrosses_eq_halfOpenWest, ih]

/-- C2 (amended): the ray-casting routine counts a crossing for a
polygon edge exactly when the test latitude is at least the lower
endpoint latitude and strictly below the higher one (half-open, not
strictly between both) and the point lies west of the edge at that
latitude, and it returns inside exactly when that crossing count is
odd. -/
theorem isPointInPolygon_halfOpen_parity (lng lat : ℚ) (polygon : List Coord) :
    isPointInPolygon lng lat polygon = true ↔
      Odd (edgeCount (halfOpenWest lng lat) polygon) := by
  cases hl : polygon.getLast? with
  | none => simp [isPointInPolygon, edgeCount, hl, Nat.odd_iff]
  | some plast =>
      simp only [isPointInPolygon, edgeCount, hl]
      rw [pipLoop_parity, Bool.false_xor, decide_eq_true_eq,
        edgeCountLoop_crosses_eq]

unseal Rat.inv Rat.mul Rat.add Rat.sub in
/-- C2 (counterexample): at the point (1/2, 0) on the bottom edge of
the closed unit square, the code returns inside, yet no edge satisfies
the claim's strictly-between crossing rule — the crossing count under
the claim's rule is 0 (even), so the claim's characterisation of the
routine is false. -/
theorem strict_crossing_rule_counterexample :
    isPointInPolygon (1/2) 0 unitSquare = true ∧
      edgeCount (strictBetweenWest (1/2) 0) unitSquare = 0 := by decide

theorem chunk_flatten (B : ℕ) (hB : 0 < B) :
    ∀ (n : ℕ) (l : List OrderPayload), n = (l.length + B - 1) / B →
      ((List.range n).map (fun k => (l.drop (k * B)).take B)).flatten = l := by
  intro n
  induction n with
  | zero =>
      intro l hn
      have h0 : l.length = 0 := by
        by_contra hcon
        have he : l.length + B - 1 = (l.length - 1) + B := by omega
        rw [he, Nat.add_div_right _ hB] at hn
        exact Nat.succ_ne_zero _ hn.symm
      simp [List.length_eq_zero.mp h0]
  | succ n ih =>
      intro l hn
      have hlen : 1 ≤ l.length := by
        by_contra hcon
        have h0 : l.length = 0 := by omega
        have hz : (l.length + B - 1) / B = 0 := by
          apply Nat.div_eq_of_lt
          omega
        rw [hz] at hn
        exact Nat.succ_ne_zero n hn
      have he : l.length + B - 1 = (l.length - 1) + B := by omega
      rw [he, Nat.add_div_right _ hB] at hn
      have hn' : n = (l.length - 1) / B := Nat.add_right_cancel hn
      have htail : n = ((l.drop B).length + B - 1) / B := by
        rw [List.length_drop]
        rcases le_or_lt B l.length with hc | hc
        · have he2 : l.length - B + B - 1 = l.length - 1 := by omega
          rw [he2]
          exact hn'
        · have d1 : (l.length - B + B - 1) / B = 0 := by
            apply Nat.div_eq_of_lt
            omega
          have d2 : (l.length - 1) / B = 0 := by
            apply Nat.div_eq_of_lt
            omega
          rw [d1]
          rw [d2] at hn'
          exact hn' 
      rw [List.range_succ_eq_map, List.map_cons, List.flatten_cons, List.map_map]
      have hmap : ((List.range n).map ((fun k => (l.drop (k * B)).take B) ∘ Nat.succ)) =
          (List.range n).map (fun k => ((l.drop B).drop (k * B)).take B) := by
        apply List.map_congr_left
        intro k _
        simp only [Function.comp]
        rw [List.drop_drop]
        congr 2
        rw [Nat.succ_mul, Nat.add_comm]
      rw [hmap, Nat.zero_mul, List.drop_zero, ih (l.drop B) htail,
        List.take_append_drop]

/-- C6: for every non-empty payload list and positive batch size,
`Distribute` returns exactly ceil(len/B) batches, IDs 1..N in creation
order, concatenating the batches' payload lists gives back the input
(every payload in exactly one batch, order preserved), every batch but
possibly the last has exactly B payloads, and the last batch has
between 1 and B payloads. -/
theorem distribute_batches_spec (B : ℕ) (l : List OrderPayload)
    (hB : 0 < B) (hl : l ≠ []) :
    ∃ bs, Distribute B l = some bs ∧
      bs.length = (l.length + B - 1) / B ∧
      bs.map Batch.id = List.range' 1 bs.length ∧
      (bs.map Batch.payloads).flatten = l ∧
      (∀ b ∈ bs.dropLast, b.payloads.length = B) ∧
      ∃ lb, bs.getLast? = some lb ∧
        1 ≤ lb.payloads.length ∧ lb.payloads.length ≤ B := by
  have hlen : 1 ≤ l.length := List.length_pos.mpr hl
  have hnB : (l.length + B - 1) / B = (l.length - 1) / B + 1 := by
    have he : l.length + B - 1 = (l.length - 1) + B := by omega
    rw [he, Nat.add_div_right _ hB]
  have hmB : ((l.length - 1) / B) * B ≤ l.length - 1 := Nat.div_mul_le_self _ _
  refine ⟨(List.range ((l.length + B - 1) / B)).map
      (fun k => { id := k + 1, payloads := (l.drop (k * B)).take B }), ?_, ?_, ?_, ?_, ?_, ?_⟩
  · simp only [Distribute]
    rw [if_neg (by simp [hl]), if_neg (by omega)]
  · simp
  · simp only [List.map_map, List.length_map, List.length_range]
    rw [List.range'_eq_map_range]
    apply List.map_congr_left
    intro k _
    simp [Function.comp, Nat.add_comm]
  · have hjoin := chunk_flatten B hB ((l.length + B - 1) / B) l rfl
    simpa [List.map_map, Function.comp] using hjoin
  · intro b hb
    rw [hnB, List.range_succ, List.map_append] at hb
    simp only [List.map_cons, List.map_nil] at hb
    rw [List.dropLast_concat] at hb
    obtain ⟨k, hk, rfl⟩ := List.mem_map.mp hb
    rw [List.mem_range] at hk
    simp only [List.length_take, List.length_drop]
    have h1 : (k + 1) * B ≤ ((l.length - 1) / B) * B :=
      Nat.mul_le_mul_right B (by omega)
    rw [Nat.succ_mul] at h1
    omega
  · refine ⟨{ id := (l.length - 1) / B + 1
              payloads := (l.drop (((l.length - 1) / B) * B)).take B }, ?_, ?_, ?_⟩
    · rw [hnB, List.range_succ, List.map_append]
      exact List.getLast?_concat _
    · simp only [List.length_take, List.length_drop]
      omega
    · simp only [List.length_take, List.length_drop]
      omega

theorem distribute_batch_payloads_nonempty (B : ℕ) (l : List OrderPayload)
    (hB : 0 < B) (hl : l ≠ []) (bs : List Batch)
    (hbs : Distribute B l = some bs) :
    ∀ b ∈ bs, b.payloads.isEmpty = false := by
  have hlen : 1 ≤ l.length := List.length_pos.mpr hl
  have hmB : ((l.length - 1) / B) * B ≤ l.length - 1 := Nat.div_mul_le_self _ _
  have hnB : (l.length + B - 1) / B = (l.length - 1) / B + 1 := by
    have he : l.length + B - 1 = (l.length - 1) + B := by omega
    rw [he, Nat.add_div_right _ hB]
  have hd : Distribute B l = some ((List.range ((l.length + B - 1) / B)).map
      (fun k => { id := k + 1, payloads := (l.drop (k * B)).take B })) := by
    simp only [Distribute]
    rw [if_neg (by simp [hl]), if_neg (by omega)]
  rw [hd] at hbs
  obtain rfl := (Option.some_injective _ hbs).symm
  intro b hb
  obtain ⟨k, hk, rfl⟩ := List.mem_map.mp hb
  rw [List.mem_range, hnB] at hk
  have h1 : k * B ≤ ((l.length - 1) / B) * B := Nat.mul_le_mul_right B (by omega)
  have h2 : k * B ≤ l.length - 1 := le_trans h1 hmB
  have h3 : k * B < l.length := by omega
  have hpos : 0 < (List.take B (List.drop (k * B) l)).length := by
    simp only [List.length_take, List.length_drop]
    omega
  rw [← Bool.not_eq_true, List.isEmpty_iff]
  exact List.length_pos.mp hpos

theorem validateLoop_ok (bs : List Batch)
    (h : ∀ b ∈ bs, b.payloads.isEmpty = false) : validateLoop bs = Except.ok () := by
  induction bs with
  | nil => rfl
  | cons b rest ih =>
      have hb := h b (by simp)
      simp only [validateLoop, hb, Bool.false_eq_true, if_false]
      exact ih (fun x hx => h x (by simp [hx]))

/-- C7: with a positive batch size, the distribute-then-validate
pipeline reports a validation error exactly when the input payload list
is empty: on empty input `ValidateBatches` rejects the (empty) batch
list, and on any non-empty input it reports no error, since no
resulting batch is empty. -/
theorem distribute_validate_iff_empty (B : ℕ) (l : List OrderPayload) (hB : 0 < B) :
    ∃ bs, Distribute B l = some bs ∧
      (l = [] → ValidateBatches bs = Except.error "no batches to validate") ∧
      (l ≠ [] → ValidateBatches bs = Except.ok ()) := by
  rcases eq_or_ne l [] with rfl | hl
  · exact ⟨[], by simp [Distribute], fun _ => rfl, fun hcon => absurd rfl hcon⟩
  · have hlen : 1 ≤ l.length := List.length_pos.mpr hl
    have hnB : (l.length + B - 1) / B = (l.length - 1) / B + 1 := by
      have he : l.length + B - 1 = (l.length - 1) + B := by omega
      rw [he, Nat.add_div_right _ hB]
    have hd : Distribute B l = some ((List.range ((l.length + B - 1) / B)).map
        (fun k => { id := k + 1, payloads := (l.drop (k * B)).take B })) := by
      simp only [Distribute]
      rw [if_neg (by simp [hl]), if_neg (by omega)]
    refine ⟨_, hd, fun hcon => absurd hcon hl, fun _ => ?_⟩
    have hne : ((List.range ((l.length + B - 1) / B)).map
        (fun k => ({ id := k + 1, payloads := (l.drop (k * B)).take B } : Batch))).isEmpty
          = false := by
      rw [hnB, List.range_succ_eq_map]
      rfl
    simp only [ValidateBatches, hne, Bool.false_eq_true, if_false]
    exact validateLoop_ok _ (distribute_batch_payloads_nonempty B l hB hl _ hd)

theorem generatePolyline_inBoundary (pd : PayloadData) (hq : ℚ) :
    ∀ (fuel : ℕ) (st : GenState) (pl : Placement) (st' : GenState),
      generatePolyline pd hq fuel st = some (pl, st') →
      isPolylineInBoundary pd pl.geom = true := by
  intro fuel
  induction fuel with
  | zero => intro st pl st' h; simp [generatePolyline] at h
  | succ n ih =>
      intro st pl st' h
      simp only [generatePolyline] at h
      by_cases hc : isPolylineInBoundary pd (candidateCoords pd hq st) = true
      · rw [if_pos hc] at h
        simp only [Option.some.injEq, Prod.mk.injEq] at h
        rw [← h.1]
        exact hc
      · rw [if_neg hc] at h
        exact ih (advanceRow st) pl st' h

theorem generatePayload_parts (cfg : SimConfig) (pd : PayloadData) (hq : ℚ)
    (fuel : ℕ) (i : ℕ) (ty : OrderType) (st : GenState)
    (p : OrderPayload × Placement) (st' : GenState)
    (h : generatePayload cfg pd hq fuel i ty st = some (p, st')) :
    generatePolyline pd hq fuel st = some (p.2, st') ∧
      p.1.type = ty ∧ p.1.geometry = p.2.geom := by
  cases hg : generatePolyline pd hq fuel st with
  | none => simp [generatePayload, hg] at h
  | some v =>
      obtain ⟨pl, st1⟩ := v
      simp only [generatePayload, hg, Option.some.injEq, Prod.mk.injEq] at h
      obtain ⟨h1, h2⟩ := h
      subst h2
      rw [← h1]
      exact ⟨rfl, rfl, rfl⟩

theorem genLoop_parts (cfg : SimConfig) (pd : PayloadData) (hq : ℚ) (fuel : ℕ) :
    ∀ (idx : List (ℕ × OrderType)) (st : GenState)
      (ps : List (OrderPayload × Placement)) (st' : GenState),
      genLoop cfg pd hq fuel idx st = some (ps, st') →
      ps.map (fun x => x.1.type) = idx.map Prod.snd ∧
        ∀ x ∈ ps, isPolylineInBoundary pd x.1.geometry = true := by
  intro idx
  induction idx with
  | nil =>
      intro st ps st' h
      simp only [genLoop, Option.some.injEq, Prod.mk.injEq] at h
      rw [← h.1]
      exact ⟨rfl, by simp⟩
  | cons hd rest ih =>
      intro st ps st' h
      obtain ⟨i, ty⟩ := hd
      cases hg : generatePayload cfg pd hq fuel i ty st with
      | none => simp [genLoop, hg] at h
      | some v =>
          obtain ⟨p, st1⟩ := v
          cases hrest : genLoop cfg pd hq fuel rest st1 with
          | none => simp [genLoop, hg, hrest] at h
          | some v2 =>
              obtain ⟨ps2, st2⟩ := v2
              simp only [genLoop, hg, hrest, Option.some.injEq, Prod.mk.injEq] at h
              obtain ⟨h1, _⟩ := h
              obtain ⟨hpoly, hty, hgeom⟩ :=
                generatePayload_parts cfg pd hq fuel i ty st p st1 hg
              obtain ⟨ihty, ihbound⟩ := ih st1 ps2 st2 hrest
              rw [← h1]
              constructor
              · simp [hty, ihty]
              · intro x hx
                rcases List.mem_cons.mp hx with rfl | hx2
                · rw [hgeom]
                  exact generatePolyline_inBoundary pd hq fuel st x.2 st1 hpoly
                · exact ihbound x hx2

/-- C3: whenever `GenerateAll` returns a list of payloads and a
non-empty boundary polygon is configured, every coordinate of every
generated geometry passes the ray-casting point-in-polygon test against
the boundary's exterior (first) ring. -/
theorem generateAll_geometries_in_boundary (cfg : SimConfig) (pd : PayloadData)
    (fuel : ℕ) (l : List (OrderPayload × Placement))
    (ring : List Coord) (rs : List (List Coord))
    (hrings : pd.boundary = ring :: rs)
    (h : GenerateAll cfg pd fuel = some l) :
    ∀ x ∈ l, ∀ c ∈ x.1.geometry, isPointInPolygon c.lng c.lat ring = true := by
  cases hg : genLoop cfg pd (calculatePolylineHeight pd.basePolyline) fuel
      (generateAllIndices cfg) initGenState with
  | none => simp [GenerateAll, hg] at h
  | some v =>
      obtain ⟨ps, stf⟩ := v
      simp only [GenerateAll, hg, Option.some.injEq] at h
      subst h
      intro x hx c hc
      have hb := (genLoop_parts cfg pd (calculatePolylineHeight pd.basePolyline)
        fuel (generateAllIndices cfg) initGenState ps stf hg).2 x hx
      rw [isPolylineInBoundary, hrings] at hb
      exact List.all_eq_true.mp hb c hc

unseal Rat.inv Rat.mul Rat.add Rat.sub in
/-- C3 witness: a one-order run against the square boundary `sq4`
produces the single payload `wPayOne`, whose only coordinate (1,1)
passes the point-in-polygon test against `sq4`. -/
theorem generateAll_geometries_in_boundary_witness :
    isPointInPolygon (Coord.mk 1 1).lng (Coord.mk 1 1).lat sq4 = true :=
  generateAll_geometries_in_boundary wcfgOne wpdSquare 2 [(wPayOne, wPlOne)] sq4 []
    (by decide) (by decide) (wPayOne, wPlOne) (by decide) (Coord.mk 1 1) (by decide)

/-- C5: whenever `GenerateAll` returns with activatedCount ≤
totalOrders, it yields exactly totalOrders payloads, of which exactly
activatedCount have the activate type and the remaining
totalOrders − activatedCount the accepted type. -/
theorem generateAll_type_counts (cfg : SimConfig) (pd : PayloadData) (fuel : ℕ)
    (l : List (OrderPayload × Placement))
    (hAN : cfg.activatedCount ≤ cfg.totalOrders)
    (h : GenerateAll cfg pd fuel = some l) :
    l.length = cfg.totalOrders ∧
    l.countP (fun x => decide (x.1.type = OrderType.activate)) = cfg.activatedCount ∧
    l.countP (fun x => decide (x.1.type = OrderType.accepted)) =
      cfg.totalOrders - cfg.activatedCount := by
  cases hg : genLoop cfg pd (calculatePolylineHeight pd.basePolyline) fuel
      (generateAllIndices cfg) initGenState with
  | none => simp [GenerateAll, hg] at h
  | some v =>
      obtain ⟨ps, stf⟩ := v
      simp only [GenerateAll, hg, Option.some.injEq] at h
      subst h
      have htypes := (genLoop_parts cfg pd (calculatePolylineHeight pd.basePolyline)
        fuel (generateAllIndices cfg) initGenState ps stf hg).1
      have hidxlen : (generateAllIndices cfg).length = cfg.totalOrders := by
        simp only [generateAllIndices, List.length_append, List.length_map,
          List.length_range, List.length_range']
        omega
      have hlen : ps.length = cfg.totalOrders := by
        have hc := congrArg List.length htypes
        simp only [List.length_map] at hc
        rw [hc, hidxlen]
      have hcount : ∀ t : OrderType,
          ps.countP (fun x => decide (x.1.type = t)) =
            (generateAllIndices cfg).countP (fun it => decide (it.2 = t)) := by
        intro t
        have h1 : ps.countP (fun x => decide (x.1.type = t)) =
            (ps.map (fun x => x.1.type)).countP (fun u => decide (u = t)) := by
          rw [List.countP_map]
          rfl
        rw [h1, htypes, List.countP_map]
        rfl
      refine ⟨hlen, ?_, ?_⟩
      · rw [hcount OrderType.activate]
        simp [generateAllIndices, List.countP_append, List.countP_map,
          Function.comp_def, List.countP_true, List.countP_false]
      · rw [hcount OrderType.accepted]
        simp [generateAllIndices, List.countP_append, List.countP_map,
          Function.comp_def, List.countP_true, List.countP_false]

/-- C5 witness: a three-order run (two activate, one accepted) with no
boundary yields exactly the list `wListFlat` with the stated counts. -/
theorem generateAll_type_counts_witness :
    wListFlat.length = wcfgFlat.totalOrders ∧
    wListFlat.countP (fun x => decide (x.1.type = OrderType.activate)) =
      wcfgFlat.activatedCount ∧
    wListFlat.countP (fun x => decide (x.1.type = OrderType.accepted)) =
      wcfgFlat.totalOrders - wcfgFlat.activatedCount :=
  generateAll_type_counts wcfgFlat wpdFree 1 wListFlat (by decide) (by decide)

theorem advanceRow_row (st : GenState) :
    (advanceRow st).currentRow = st.currentRow + 1 := rfl

theorem placeSuccess_row (st : GenState) :
    (placeSuccess st).currentRow = st.currentRow := rfl

theorem placeSuccess_dir (st : GenState) :
    (placeSuccess st).direction = st.direction := rfl

theorem placeSuccess_col (st : GenState) :
    (placeSuccess st).currentCol =
      if st.direction = 1 then st.currentCol + 1 else st.currentCol - 1 := rfl

theorem placedBeyond_advanceRow (p : Placement) (st : GenState)
    (h : placedBeyond p st) : placedBeyond p (advanceRow st) := by
  left
  rw [advanceRow_row]
  rcases h with h | ⟨h, -⟩ <;> omega

theorem placedBeyond_placeSuccess (st : GenState) (geom : List Coord) :
    placedBeyond
      { geom := geom, row := st.currentRow, col := st.currentCol, dir := st.direction }
      (placeSuccess st) := by
  right
  refine ⟨rfl, rfl, fun hdir => ?_, fun hdir => ?_⟩
  · rw [placeSuccess_dir] at hdir
    show st.currentCol < (placeSuccess st).currentCol
    rw [placeSuccess_col, if_pos hdir]
    omega
  · rw [placeSuccess_dir] at hdir
    show (placeSuccess st).currentCol < st.currentCol
    rw [placeSuccess_col, if_neg hdir]
    omega

theorem generatePolyline_beyond_new (pd : PayloadData) (hq : ℚ) :
    ∀ (fuel : ℕ) (st : GenState) (q : Placement) (st' : GenState),
      generatePolyline pd hq fuel st = some (q, st') → placedBeyond q st' := by
  intro fuel
  induction fuel with
  | zero => intro st q st' h; simp [generatePolyline] at h
  | succ n ih =>
      intro st q st' h
      simp only [generatePolyline] at h
      by_cases hc : isPolylineInBoundary pd (candidateCoords pd hq st) = true
      · rw [if_pos hc] at h
        simp only [Option.some.injEq, Prod.mk.injEq] at h
        obtain ⟨h1, h2⟩ := h
        subst h2
        rw [← h1]
        exact placedBeyond_placeSuccess st (candidateCoords pd hq st)
      · rw [if_neg hc] at h
        exact ih (advanceRow st) q st' h

theorem generatePolyline_rel (pd : PayloadData) (hq : ℚ) :
    ∀ (fuel : ℕ) (st : GenState) (p q : Placement) (st' : GenState),
      placedBeyond p st →
      generatePolyline pd hq fuel st = some (q, st') →
      placedRel p q ∧ placedBeyond p st' := by
  intro fuel
  induction fuel with
  | zero => intro st p q st' hb h; simp [generatePolyline] at h
  | succ n ih =>
      intro st p q st' hb h
      simp only [generatePolyline] at h
      by_cases hc : isPolylineInBoundary pd (candidateCoords pd hq st) = true
      · rw [if_pos hc] at h
        simp only [Option.some.injEq, Prod.mk.injEq] at h
        obtain ⟨h1, h2⟩ := h
        subst h2
        rw [← h1]
        constructor
        · rcases hb with hb | ⟨hb1, hb2, hb3, hb4⟩
          · left
            exact hb
          · right
            exact ⟨hb1, hb2, fun hd => hb3 hd, fun hd => hb4 hd⟩
        · rcases hb with hb | ⟨hb1, hb2, hb3, hb4⟩
          · left
            rw [placeSuccess_row]
            exact hb
          · right
            rw [placeSuccess_row, placeSuccess_dir]
            refine ⟨hb1, hb2, fun hd => ?_, fun hd => ?_⟩
            · rw [placeSuccess_col, if_pos hd]
              have := hb3 hd
              omega
            · rw [placeSuccess_col, if_neg hd]
              have := hb4 hd
              omega
      · rw [if_neg hc] at h
        exact ih (advanceRow st) p q st' (placedBeyond_advanceRow p st hb) h

theorem genLoop_beyond (cfg : SimConfig) (pd : PayloadData) (hq : ℚ) (fuel : ℕ) :
    ∀ (idx : List (ℕ × OrderType)) (st : GenState)
      (ps : List (OrderPayload × Placement)) (stf : GenState) (p : Placement),
      placedBeyond p st →
      genLoop cfg pd hq fuel idx st = some (ps, stf) →
      (∀ q ∈ ps.map Prod.snd, placedRel p q) ∧ placedBeyond p stf := by
  intro idx
  induction idx with
  | nil =>
      intro st ps stf p hb h
      simp only [genLoop, Option.some.injEq, Prod.mk.injEq] at h
      obtain ⟨h1, h2⟩ := h
      subst h2
      rw [← h1]
      exact ⟨by simp, hb⟩
  | cons hd rest ih =>
      intro st ps stf p hb h
      obtain ⟨i, ty⟩ := hd
      cases hg : generatePayload cfg pd hq fuel i ty st with
      | none => simp [genLoop, hg] at h
      | some v =>
          obtain ⟨pq, st1⟩ := v
          cases hrest : genLoop cfg pd hq fuel rest st1 with
          | none => simp [genLoop, hg, hrest] at h
          | some v2 =>
              obtain ⟨ps2, st2⟩ := v2
              simp only [genLoop, hg, hrest, Option.some.injEq, Prod.mk.injEq] at h
              obtain ⟨h1, h2⟩ := h
              subst h2
              obtain ⟨hpoly, -, -⟩ :=
                generatePayload_parts cfg pd hq fuel i ty st pq st1 hg
              obtain ⟨hrel, hbey1⟩ :=
                generatePolyline_rel pd hq fuel st p pq.2 st1 hb hpoly
              obtain ⟨hall, hbey2⟩ := ih st1 ps2 st2 p hbey1 hrest
              rw [← h1]
              refine ⟨?_, hbey2⟩
              intro q hqmem
              simp only [List.map_cons, List.mem_cons] at hqmem
              rcases hqmem with rfl | hqmem
              · exact hrel
              · exact hall q hqmem

theorem genLoop_pairwise (cfg : SimConfig) (pd : PayloadData) (hq : ℚ) (fuel : ℕ) :
    ∀ (idx : List (ℕ × OrderType)) (st : GenState)
      (ps : List (OrderPayload × Placement)) (stf : GenState),
      genLoop cfg pd hq fuel idx st = some (ps, stf) →
      List.Pairwise placedRel (ps.map Prod.snd) := by
  intro idx
  induction idx with
  | nil =>
      intro st ps stf h
      simp only [genLoop, Option.some.injEq, Prod.mk.injEq] at h
      rw [← h.1]
      simp
  | cons hd rest ih =>
      intro st ps stf h
      obtain ⟨i, ty⟩ := hd
      cases hg : generatePayload cfg pd hq fuel i ty st with
      | none => simp [genLoop, hg] at h
      | some v =>
          obtain ⟨pq, st1⟩ := v
          cases hrest : genLoop cfg pd hq fuel rest st1 with
          | none => simp [genLoop, hg, hrest] at h
          | some v2 =>
              obtain ⟨ps2, st2⟩ := v2
              simp only [genLoop, hg, hrest, Option.some.injEq, Prod.mk.injEq] at h
              obtain ⟨h1, h2⟩ := h
              subst h2
              obtain ⟨hpoly, -, -⟩ :=
                generatePayload_parts cfg pd hq fuel i ty st pq st1 hg
              have hnew := generatePolyline_beyond_new pd hq fuel st pq.2 st1 hpoly
              have hall :=
                (genLoop_beyond cfg pd hq fuel rest st1 ps2 st2 pq.2 hnew hrest).1
              rw [← h1]
              simp only [List.map_cons]
              exact List.Pairwise.cons hall (ih st1 ps2 st2 hrest)

/-- C4: across any sequence of generation calls on one generator
instance (started from the initial grid state), no two returned
geometries are placed at the same (row, column) grid cell, and any two
placements in the same row have the same scan direction with the
earlier placement's column strictly before the later one's in that
direction (strictly increasing when the direction is 1, strictly
decreasing otherwise). -/
theorem genLoop_placements_unique_monotone (cfg : SimConfig) (pd : PayloadData)
    (hq : ℚ) (fuel : ℕ) (idx : List (ℕ × OrderType))
    (ps : List (OrderPayload × Placement)) (stf : GenState)
    (h : genLoop cfg pd hq fuel idx initGenState = some (ps, stf)) :
    List.Pairwise (fun p q : Placement =>
      ¬(p.row = q.row ∧ p.col = q.col) ∧
      (p.row = q.row → p.dir = q.dir ∧
        (p.dir = 1 → p.col < q.col) ∧ (p.dir ≠ 1 → q.col < p.col)))
      (ps.map Prod.snd) := by
  have hp := genLoop_pairwise cfg pd hq fuel idx initGenState ps stf h
  refine hp.imp ?_
  intro p q hrel
  rcases hrel with hlt | ⟨h1, h2, h3, h4⟩
  · constructor
    · intro hc
      omega
    · intro hc
      omega
  · refine ⟨?_, fun _ => ⟨h2, fun hpd => h3 (h2 ▸ hpd), fun hpd => h4 (h2 ▸ hpd)⟩⟩
    intro hc
    rcases eq_or_ne q.dir 1 with hd | hd
    · have := h3 hd
      omega
    · have := h4 hd
      omega

/-- C4 witness: the three-order run `wListFlat` (row 0, columns 0,1,2,
direction 1) satisfies cell uniqueness and in-row monotonicity. -/
theorem genLoop_placements_unique_monotone_witness :
    List.Pairwise (fun p q : Placement =>
      ¬(p.row = q.row ∧ p.col = q.col) ∧
      (p.row = q.row → p.dir = q.dir ∧
        (p.dir = 1 → p.col < q.col) ∧ (p.dir ≠ 1 → q.col < p.col)))
      (wListFlat.map Prod.snd) :=
  genLoop_placements_unique_monotone wcfgFlat wpdFree 0 1
    (generateAllIndices wcfgFlat) wListFlat
    { currentRow := 0, currentCol := 3, direction := 1, maxColInRow := 2 }
    (by decide)

/-- C6 witness: distributing three payloads with batch size 2 yields
two batches with IDs 1,2, the first of size 2 and the last of size 1. -/
theorem distribute_batches_spec_witness :
    ∃ bs, Distribute 2 wPayloads = some bs ∧
      bs.length = (wPayloads.length + 2 - 1) / 2 ∧
      bs.map Batch.id = List.range' 1 bs.length ∧
      (bs.map Batch.payloads).flatten = wPayloads ∧
      (∀ b ∈ bs.dropLast, b.payloads.length = 2) ∧
      ∃ lb, bs.getLast? = some lb ∧
        1 ≤ lb.payloads.length ∧ lb.payloads.length ≤ 2 :=
  distribute_batches_spec 2 wPayloads (by decide) (by decide)

/-- C7 witness: with batch size 2 the distribute-then-validate pipeline
accepts the non-empty list `wPayloads` and rejects the empty list. -/
theorem distribute_validate_iff_empty_witness :
    (∃ bs, Distribute 2 wPayloads = some bs ∧
      (wPayloads = [] → ValidateBatches bs = Except.error "no batches to validate") ∧
      (wPayloads ≠ [] → ValidateBatches bs = Except.ok ())) ∧
    (∃ bs, Distribute 2 ([] : List OrderPayload) = some bs ∧
      (([] : List OrderPayload) = [] →
        ValidateBatches bs = Except.error "no batches to validate") ∧
      (([] : List OrderPayload) ≠ [] → ValidateBatches bs = Except.ok ())) :=
  ⟨distribute_validate_iff_empty 2 wPayloads (by decide),
   distribute_validate_iff_empty 2 [] (by decide)⟩

/-- C1 (code evidence): on a fully successful activate-type order — and
likewise for an accepted-type order — the lifecycle driver writes to
the OrderResult after enqueuing the TerminationRequest: `activateFlow`
sets the state to pending_end (`acceptedFlow` to pending_cancel) after
the channel send, and `ProcessOrder` then writes EndTime and Duration.
The producer trace therefore contains writes after the enqueue,
contradicting the claimed ownership transfer. -/
theorem producer_writes_after_enqueue :
    ((ProcessOrder happyEnv happyPayload 0 5).map
        (fun out => writesAfterEnqueue out.trace)) = some true ∧
    ((ProcessOrder happyEnv (fixturePayload "ORD-000002" OrderType.accepted) 0 5).map
        (fun out => writesAfterEnqueue out.trace)) = some true := by decide

theorem pollLoop_cancel (events : List WaitEvent)
    (h : cancelObservedPoll events = true) :
    pollLoop events = some (Except.error SimErr.ctxCanceled) := by
  induction events with
  | nil => simp [cancelObservedPoll] at h
  | cons e rest ih =>
      cases e with
      | ctxDone => rfl
      | timeout => simp [cancelObservedPoll] at h
      | tick resp =>
          cases resp with
          | error e2 => simp [cancelObservedPoll] at h
          | ok s =>
              by_cases hs : s = "Accepted"
              · simp [cancelObservedPoll, hs] at h
              · by_cases hf : s = "Failed"
                · simp [cancelObservedPoll, hs, hf] at h
                · simp only [cancelObservedPoll, hs, hf, if_false] at h
                  simp only [pollLoop, hs, hf, if_false]
                  exact ih h

theorem waitForAcceptance_cancel (env : OrderEnv)
    (h : cancelDuringWait env = true) :
    waitForAcceptance env = some (Except.error SimErr.ctxCanceled) := by
  simp only [cancelDuringWait, Bool.or_eq_true] at h
  by_cases ha : env.afterCreateCancelled = true
  · simp [waitForAcceptance, ha]
  · rcases h with h | h
    · exact absurd h ha
    · simp only [waitForAcceptance, ha, if_false]
      exact pollLoop_cancel env.waitEvents h

theorem processOrder_cancelled (env : OrderEnv) (pl : OrderPayload) (st now : ℤ)
    (oid : String) (hc : env.createResult = Except.ok oid)
    (hw : cancelDuringWait env = true) :
    ProcessOrder env pl st now = some
      { res := some { orderNumber := pl.orderNumber, orderID := oid,
                      type := pl.type, state := OrderState.failed,
                      startTime := st, endTime := 0, duration := 0,
                      error := some SimErr.ctxCanceled }
        err := some SimErr.ctxCanceled
        sent := []
        trace := [ProdEvent.writeOrderID, ProdEvent.writeState OrderState.created,
                  ProdEvent.writeError, ProdEvent.writeState OrderState.failed] } := by
  have hwa := waitForAcceptance_cancel env hw
  simp [ProcessOrder, hc, hwa]

/-- C8 (amended): when the external cancellation signal is observed
during the in-progress initial wait or acceptance poll of an order
whose creation succeeded, the wait aborts with the cancellation error
(a value distinct from the timeout error), and the affected order is
marked Failed with that error and counted in the batch's failed-order
count (it is not left merely uncompleted). -/
theorem cancel_during_wait_behavior (env : OrderEnv) (pl : OrderPayload)
    (st now : ℤ) (oid : String) (bid : ℕ) (ie : BatchItemEnv)
    (hc : env.createResult = Except.ok oid)
    (hw : cancelDuringWait env = true)
    (hie1 : ie.ctxAlreadyCancelled = false)
    (hie2 : ie.orderEnv = env) :
    SimErr.ctxCanceled ≠ SimErr.acceptanceTimeout ∧
    waitForAcceptance env = some (Except.error SimErr.ctxCanceled) ∧
    (ProcessOrder env pl st now).map
        (fun out => (out.err, out.res.map (fun r => (r.state, r.error)))) =
      some (some SimErr.ctxCanceled,
            some (OrderState.failed, some SimErr.ctxCanceled)) ∧
    (processSingleBatch bid [(pl, ie)]).map
        (fun b => (b.failedOrders, b.successfulOrders)) = Except.ok (1, 0) := by
  refine ⟨by simp, waitForAcceptance_cancel env hw, ?_, ?_⟩
  · rw [processOrder_cancelled env pl st now oid hc hw]
    rfl
  · have hpo := processOrder_cancelled env pl ie.startTime ie.endClock oid hc hw
    simp [processSingleBatch, batchLoop, hie1, hie2, hpo]
    rfl

/-- C8 (counterexample): an order whose acceptance poll observes the
cancellation signal is recorded with state Failed and increments the
batch's failed-order count — it is not marked merely not-completed, and
the failed count does grow, contrary to the claim. -/
theorem cancellation_counted_failed_counterexample :
    (processSingleBatch 1 [(happyPayload, wItemEnv)]).map
        (fun b => (b.failedOrders, b.successfulOrders,
                   b.orderResults.map (fun r => (r.state, r.error)))) =
      Except.ok (1, 0, [(OrderState.failed, some SimErr.ctxCanceled)]) := by decide

/-- C8 witness for the amended claim, at the concrete environment
`cancelEnv` (create succeeds, cancellation fires at the first poll). -/
theorem cancel_during_wait_behavior_witness :
    SimErr.ctxCanceled ≠ SimErr.acceptanceTimeout ∧
    waitForAcceptance cancelEnv = some (Except.error SimErr.ctxCanceled) ∧
    (ProcessOrder cancelEnv happyPayload 0 5).map
        (fun out => (out.err, out.res.map (fun r => (r.state, r.error)))) =
      some (some SimErr.ctxCanceled,
            some (OrderState.failed, some SimErr.ctxCanceled)) ∧
    (processSingleBatch 1 [(happyPayload, wItemEnv)]).map
        (fun b => (b.failedOrders, b.successfulOrders)) = Except.ok (1, 0) :=
  cancel_during_wait_behavior cancelEnv happyPayload 0 5 "order-123" 1 wItemEnv
    (by decide) (by decide) (by decide) (by decide)

theorem terminationWorker_map (l : List (TermEnv × TerminationRequest)) :
    TerminationWorker l = l.map (fun pr => processTermination pr.1 pr.2) := by
  induction l with
  | nil => rfl
  | cons p rest ih =>
      obtain ⟨env, req⟩ := p
      simp [TerminationWorker, ih]

/-- C9: for every termination request applied by the worker, a
successful end writes the Ended state, a successful cancel writes the
Cancelled state, a failed remote call writes the Failed state together
with the captured (non-nil) wrapped error, and in all cases the
completion timestamp and duration are written; the worker applies
`processTermination` to each consumed request in arrival order. -/
theorem processTermination_spec (env : TermEnv) (req : TerminationRequest)
    (l : List (TermEnv × TerminationRequest)) :
    (processTermination env req).endTime = env.now ∧
    (processTermination env req).duration = env.now - req.result.startTime ∧
    (∀ v, req.action = TermAction.actionEnd → env.endResult = Except.ok v →
      (processTermination env req).state = OrderState.ended) ∧
    (∀ v, req.action = TermAction.actionCancel → env.cancelResult = Except.ok v →
      (processTermination env req).state = OrderState.cancelled) ∧
    (∀ e, req.action = TermAction.actionEnd → env.endResult = Except.error e →
      (processTermination env req).state = OrderState.failed ∧
      (processTermination env req).error = some (SimErr.endFailed e)) ∧
    (∀ e, req.action = TermAction.actionCancel → env.cancelResult = Except.error e →
      (processTermination env req).state = OrderState.failed ∧
      (processTermination env req).error = some (SimErr.cancelFailed e)) ∧
    TerminationWorker l = l.map (fun pr => processTermination pr.1 pr.2) := by
  obtain ⟨er, cr, nw⟩ := env
  obtain ⟨oid, act, res⟩ := req
  cases act <;> cases er <;> cases cr <;>
    refine ⟨rfl, rfl, ?_, ?_, ?_, ?_, terminationWorker_map l⟩ <;>
    intro x h1 h2 <;> simp_all [processTermination]

/-- C9 witness: a cancel request whose remote call fails with "boom"
leaves the referenced record in the Failed state with the captured
error. -/
theorem processTermination_spec_witness :
    (processTermination wTermEnv wTermReq).state = OrderState.failed ∧
    (processTermination wTermEnv wTermReq).error =
      some (SimErr.cancelFailed "boom") :=
  (processTermination_spec wTermEnv wTermReq []).2.2.2.2.2.1 "boom" rfl rfl

theorem processOrder_res_isSome (env : OrderEnv) (pl : OrderPayload)
    (st now : ℤ) (out : ProcOut) (h : ProcessOrder env pl st now = some out) :
    out.res.isSome = true ∧
    (∀ e, out.err = some e → ∃ r, out.res = some r ∧ r.error = some e) := by
  cases hc : env.createResult with
  | error e0 =>
      simp only [ProcessOrder, hc, Option.some.injEq] at h
      subst h
      refine ⟨rfl, fun e he => ⟨_, rfl, ?_⟩⟩
      simp only [Option.some.injEq] at he
      rw [← he]
  | ok oid =>
      cases hw : waitForAcceptance env with
      | none => simp [ProcessOrder, hc, hw] at h
      | some res0 =>
          cases res0 with
          | error e1 =>
              simp only [ProcessOrder, hc, hw, Option.some.injEq] at h
              subst h
              refine ⟨rfl, fun e he => ⟨_, rfl, ?_⟩⟩
              simp only [Option.some.injEq] at he
              rw [← he]
          | ok u =>
              simp only [ProcessOrder, hc, hw] at h
              split at h
              · rename_i e heq
                simp only [Option.some.injEq] at h
                subst h
                refine ⟨rfl, fun e2 he => ⟨_, rfl, ?_⟩⟩
                simp only [Option.some.injEq] at he
                rw [← he]
              · simp only [Option.some.injEq] at h
                subst h
                refine ⟨rfl, fun e2 he => ?_⟩
                simp at he

theorem batchLoop_no_nilDeref :
    ∀ (items : List (OrderPayload × BatchItemEnv)) (acc : BatchResult),
      batchLoop items acc ≠ Except.error BatchFault.nilDeref := by
  intro items
  induction items with
  | nil => intro acc h; simp [batchLoop] at h
  | cons it rest ih =>
      intro acc h
      obtain ⟨pl, ie⟩ := it
      simp only [batchLoop] at h
      by_cases hcx : ie.ctxAlreadyCancelled = true
      · rw [if_pos hcx] at h
        exact ih _ h
      · rw [if_neg hcx] at h
        cases hpo : ProcessOrder ie.orderEnv pl ie.startTime ie.endClock with
        | none => simp [hpo] at h
        | some out =>
            cases hres : out.res with
            | none =>
                have hs := (processOrder_res_isSome ie.orderEnv pl ie.startTime
                  ie.endClock out hpo).1
                rw [hres] at hs
                simp at hs
            | some r =>
                simp only [hpo, hres] at h
                split at h
                · simp at h
                · exact ih _ h

/-- C10: `ProcessOrder` returns a non-nil `OrderResult` on every
return path, success and failure alike; whenever it returns an error,
the returned result carries that error (alongside the Failed state or
the partial state reached); consequently the batch processor's
unconditional dereference of the returned result can never hit a nil
pointer. -/
theorem processOrder_result_not_nil (env : OrderEnv) (pl : OrderPayload)
    (st now : ℤ) (out : ProcOut) (bid : ℕ)
    (items : List (OrderPayload × BatchItemEnv))
    (h : ProcessOrder env pl st now = some out) :
    out.res.isSome = true ∧
    (∀ e, out.err = some e → ∃ r, out.res = some r ∧ r.error = some e) ∧
    processSingleBatch bid items ≠ Except.error BatchFault.nilDeref := by
  obtain ⟨h1, h2⟩ := processOrder_res_isSome env pl st now out h
  exact ⟨h1, h2, batchLoop_no_nilDeref items _⟩

/-- C10 witness: at the fully successful concrete run `happyEnv`, the
returned result is non-nil and carries no error, and a batch run never
faults on the dereference. -/
theorem processOrder_result_not_nil_witness :
    wOutHappy.res.isSome = true ∧
    (∀ e, wOutHappy.err = some e → ∃ r, wOutHappy.res = some r ∧ r.error = some e) ∧
    processSingleBatch 1 [] ≠ Except.error BatchFault.nilDeref :=
  processOrder_result_not_nil happyEnv happyPayload 0 5 wOutHappy 1 [] (by decide)

end Gameday
